import Mathlib

/-!
Verification development for the og-impact live template editor
(source: src/src/App.js).  The definitions below are a shallow embedding of
the editor's core pipeline: the JSON data document, the handlebars-style
template compiler with its fail-soft fallback, the three document change
handlers, the debounced persistence layer (lodash.debounce with a maxWait),
the localStorage snapshot, and the publish client.
-/

namespace OGIE

/-! ## JSON values

`Json` models a JavaScript value produced by `JSON.parse`.  Numbers keep
their source lexeme (the claims under verification never depend on numeric
normalisation). -/

inductive Json where
  | null : Json
  | bool (b : Bool) : Json
  | num (lexeme : String) : Json
  | str (s : String) : Json
  | arr (elems : List Json) : Json
  | obj (fields : List (String × Json)) : Json

def obraceC : Char := Char.ofNat 123

def cbraceC : Char := Char.ofNat 125

def isWsChar (c : Char) : Bool :=
  c = ' ' || c = '\n' || c = '\t' || c = '\r'

def skipWs : List Char → List Char
  | [] => []
  | c :: cs => if isWsChar c then skipWs cs else c :: cs

def jsonEscChar (c : Char) : Option Char :=
  if c = '"' then some '"'
  else if c = '\\' then some '\\'
  else if c = '/' then some '/'
  else if c = 'n' then some '\n'
  else if c = 't' then some '\t'
  else if c = 'r' then some '\r'
  else if c = 'b' then some (Char.ofNat 8)
  else if c = 'f' then some (Char.ofNat 12)
  else none

/-- Body of a JSON string literal, after the opening quote.  The model of
`JSON.parse` supports the single-character escapes; `\u` escapes are not
needed by any document in scope. -/
def parseStringBody (fuel : Nat) (cs : List Char) (acc : List Char) :
    Except String (String × List Char) :=
  match fuel, cs with
  | 0, _ => .error "string fuel exhausted"
  | _ + 1, [] => .error "unterminated string"
  | f + 1, c :: rest =>
    if c = '"' then .ok (String.mk acc.reverse, rest)
    else if c = '\\' then
      match rest with
      | [] => .error "unterminated escape"
      | e :: rest2 =>
        match jsonEscChar e with
        | some d => parseStringBody f rest2 (d :: acc)
        | none => .error "unsupported escape"
    else parseStringBody f rest (c :: acc)

def isDigitChar (c : Char) : Bool := '0' ≤ c && c ≤ '9'

def takeDigits : List Char → List Char × List Char
  | [] => ([], [])
  | c :: cs =>
    if isDigitChar c then
      let p := takeDigits cs
      (c :: p.1, p.2)
    else ([], c :: cs)

def parseIntDigits (cs : List Char) : Except String (List Char × List Char) :=
  match cs with
  | [] => .error "expected digit"
  | c :: rest =>
    if c = '0' then .ok (['0'], rest)
    else if isDigitChar c then
      let p := takeDigits rest
      .ok (c :: p.1, p.2)
    else .error "expected digit"

def parseFrac (intPart : List Char) (cs : List Char) :
    Except String (List Char × List Char) :=
  match cs with
  | '.' :: rest =>
    match takeDigits rest with
    | ([], _) => .error "expected digit after decimal point"
    | (ds, rest2) => .ok (intPart ++ '.' :: ds, rest2)
  | _ => .ok (intPart, cs)

def parseExp (mant : List Char) (cs : List Char) :
    Except String (List Char × List Char) :=
  match cs with
  | [] => .ok (mant, [])
  | c :: rest =>
    if c = 'e' || c = 'E' then
      match rest with
      | [] => .error "expected digit in exponent"
      | s :: rest2 =>
        if s = '+' || s = '-' then
          match takeDigits rest2 with
          | ([], _) => .error "expected digit in exponent"
          | (ds, rest3) => .ok (mant ++ c :: s :: ds, rest3)
        else
          match takeDigits rest with
          | ([], _) => .error "expected digit in exponent"
          | (ds, rest3) => .ok (mant ++ c :: ds, rest3)
    else .ok (mant, c :: rest)

def parseNumberLexeme (cs : List Char) : Except String (String × List Char) := do
  let sp : List Char × List Char :=
    match cs with
    | '-' :: rest => (['-'], rest)
    | _ => ([], cs)
  let (ip, cs2) ← parseIntDigits sp.2
  let (m1, cs3) ← parseFrac ip cs2
  let (m2, cs4) ← parseExp m1 cs3
  pure (String.mk (sp.1 ++ m2), cs4)

mutual

/-- Recursive-descent model of `JSON.parse` (value production).  Fuel bounds
the nesting depth; `jsonParse` supplies enough fuel for any input. -/
def parseValue (fuel : Nat) (cs : List Char) : Except String (Json × List Char) :=
  match fuel with
  | 0 => .error "fuel exhausted"
  | f + 1 =>
    match skipWs cs with
    | [] => .error "unexpected end of input"
    | c :: rest =>
      if c = '"' then
        match parseStringBody (rest.length + 1) rest [] with
        | .ok (s, r) => .ok (.str s, r)
        | .error e => .error e
      else if c = obraceC then
        match skipWs rest with
        | [] => .error "unterminated object"
        | c2 :: r2 =>
          if c2 = cbraceC then .ok (.obj [], r2)
          else parseMembers f rest []
      else if c = '[' then
        match skipWs rest with
        | [] => .error "unterminated array"
        | c2 :: r2 =>
          if c2 = ']' then .ok (.arr [], r2)
          else parseElems f rest []
      else if c = 't' then
        match rest with
        | 'r' :: 'u' :: 'e' :: r => .ok (.bool true, r)
        | _ => .error "invalid literal"
      else if c = 'f' then
        match rest with
        | 'a' :: 'l' :: 's' :: 'e' :: r => .ok (.bool false, r)
        | _ => .error "invalid literal"
      else if c = 'n' then
        match rest with
        | 'u' :: 'l' :: 'l' :: r => .ok (.null, r)
        | _ => .error "invalid literal"
      else if c = '-' || isDigitChar c then
        match parseNumberLexeme (c :: rest) with
        | .ok (lex, r) => .ok (.num lex, r)
        | .error e => .error e
      else .error "unexpected character"

/-- Object members, entered after the opening brace of a non-empty object. -/
def parseMembers (fuel : Nat) (cs : List Char) (acc : List (String × Json)) :
    Except String (Json × List Char) :=
  match fuel with
  | 0 => .error "fuel exhausted"
  | f + 1 =>
    match skipWs cs with
    | [] => .error "unterminated object"
    | c :: rest =>
      if c = '"' then
        match parseStringBody (rest.length + 1) rest [] with
        | .error e => .error e
        | .ok (k, r1) =>
          match skipWs r1 with
          | ':' :: r2 =>
            match parseValue f r2 with
            | .error e => .error e
            | .ok (v, r3) =>
              match skipWs r3 with
              | [] => .error "unterminated object"
              | c2 :: r4 =>
                if c2 = ',' then parseMembers f r4 (acc ++ [(k, v)])
                else if c2 = cbraceC then .ok (.obj (acc ++ [(k, v)]), r4)
                else .error "expected comma or closing brace"
          | _ => .error "expected colon"
      else .error "expected string key"

/-- Array elements, entered after the opening bracket of a non-empty array. -/
def parseElems (fuel : Nat) (cs : List Char) (acc : List Json) :
    Except String (Json × List Char) :=
  match fuel with
  | 0 => .error "fuel exhausted"
  | f + 1 =>
    match parseValue f cs with
    | .error e => .error e
    | .ok (v, r1) =>
      match skipWs r1 with
      | ',' :: r2 => parseElems f r2 (acc ++ [v])
      | ']' :: r2 => .ok (.arr (acc ++ [v]), r2)
      | _ => .error "expected comma or closing bracket"

end

/-- Model of `JSON.parse`: parse one value and require only whitespace to
follow. -/
def jsonParse (s : String) : Except String Json :=
  match parseValue (s.length + 1) s.toList with
  | .error e => .error e
  | .ok (j, r) =>
    match skipWs r with
    | [] => .ok j
    | _ => .error "unexpected trailing characters"

def exceptIsOk {ε α : Type} : Except ε α → Bool
  | .ok _ => true
  | .error _ => false

/-! ## JSON serialisation

Model of `JSON.stringify(v, null, 2)` (src/src/App.js line 145): two-space
indented pretty printing. -/

def jsonEscapeString (s : String) : String :=
  String.mk (s.toList.foldr
    (fun c acc =>
      if c = '"' then '\\' :: '"' :: acc
      else if c = '\\' then '\\' :: '\\' :: acc
      else if c = '\n' then '\\' :: 'n' :: acc
      else if c = '\t' then '\\' :: 't' :: acc
      else if c = '\r' then '\\' :: 'r' :: acc
      else c :: acc) [])

def spaces (n : Nat) : String := String.mk (List.replicate n ' ')

mutual

def jsonStringifyAt (ind : Nat) (j : Json) : String :=
  match j with
  | .null => "null"
  | .bool b => if b then "true" else "false"
  | .num lex => lex
  | .str s => "\"" ++ jsonEscapeString s ++ "\""
  | .arr xs =>
    match xs with
    | [] => "[]"
    | _ => "[\n" ++ String.intercalate ",\n" (jsonStringifyItems (ind + 2) xs)
        ++ "\n" ++ spaces ind ++ "]"
  | .obj fs =>
    match fs with
    | [] => "\x7b\x7d"
    | _ => "\x7b\n" ++ String.intercalate ",\n" (jsonStringifyFields (ind + 2) fs)
        ++ "\n" ++ spaces ind ++ "\x7d"

def jsonStringifyItems (ind : Nat) (xs : List Json) : List String :=
  match xs with
  | [] => []
  | x :: rest => (spaces ind ++ jsonStringifyAt ind x) :: jsonStringifyItems ind rest

def jsonStringifyFields (ind : Nat) (fs : List (String × Json)) : List String :=
  match fs with
  | [] => []
  | (k, v) :: rest =>
    (spaces ind ++ "\"" ++ jsonEscapeString k ++ "\": " ++ jsonStringifyAt ind v)
      :: jsonStringifyFields ind rest

end

def jsonStringify2 (j : Json) : String := jsonStringifyAt 0 j

/-! ## Template compiler

Model of the external handlebars library as used by src/src/App.js
(`handlebars.compile(html)(params)`), restricted to the logic-less
substitution surface the system consumes (spec section 6: substitution tags
with nested field access).  A tag with no matching closing delimiter is a
compile error, as is any block-form construct, which the model does not
support.  The fail-soft fallback around the compiler (the part of the
pipeline under verification, src/src/App.js lines 72-93) is `previewInit`
and `previewStep` below. -/

def lookupField (fs : List (String × Json)) (k : String) : Option Json :=
  fs.foldl (fun acc kv => if kv.1 = k then some kv.2 else acc) none

def hbResolve (data : Json) : List String → Option Json
  | [] => some data
  | k :: ks =>
    match data with
    | .obj fs =>
      match lookupField fs k with
      | some v => hbResolve v ks
      | none => none
    | _ => none

mutual

def hbToString (j : Json) : String :=
  match j with
  | .null => ""
  | .bool b => if b then "true" else "false"
  | .num lex => lex
  | .str s => s
  | .arr xs => String.intercalate "," (hbToStringList xs)
  | .obj _ => "[object Object]"

def hbToStringList (xs : List Json) : List String :=
  match xs with
  | [] => []
  | x :: rest => hbToString x :: hbToStringList rest

end

def hbValueString (data : Json) (tag : String) : String :=
  match hbResolve data (tag.splitOn ".") with
  | some v => hbToString v
  | none => ""

def findCloseTag (fuel : Nat) (cs : List Char) (acc : List Char) :
    Option (String × List Char) :=
  match fuel, cs with
  | 0, _ => none
  | _ + 1, [] => none
  | f + 1, c :: rest =>
    if c = cbraceC then
      match rest with
      | [] => none
      | c2 :: rest2 =>
        if c2 = cbraceC then some (String.mk acc.reverse, rest2)
        else findCloseTag f rest (c :: acc)
    else findCloseTag f rest (c :: acc)

def hbSpecialChar (c : Char) : Bool :=
  c = '#' || c = '/' || c = '>' || c = '!' || c = '^' || c = '&' || c = obraceC

def hbRender (fuel : Nat) (cs : List Char) (data : Json) (acc : String) :
    Except String String :=
  match fuel, cs with
  | 0, _ => .error "fuel exhausted"
  | _ + 1, [] => .ok acc
  | f + 1, c :: rest =>
    if c = obraceC then
      match rest with
      | [] => .ok (acc.push c)
      | c2 :: rest2 =>
        if c2 = obraceC then
          match findCloseTag (rest2.length + 1) rest2 [] with
          | none => .error "unclosed tag"
          | some (tag, rest3) =>
            match (tag.trim).toList with
            | [] => .error "empty tag"
            | tc :: _ =>
              if hbSpecialChar tc then .error "unsupported handlebars construct"
              else hbRender f rest3 data (acc ++ hbValueString data (tag.trim))
        else hbRender f rest data (acc.push c)
    else hbRender f rest data (acc.push c)

/-- Model of `handlebars.compile(template)(data)`: either the rendered
output or a compile/evaluation error. -/
def hbCompile (template : String) (data : Json) : Except String String :=
  hbRender (template.length + 1) template.toList data ""

/-- The `useState` initialiser of `Preview` (src/src/App.js lines 72-81):
try to compile, and on any error fall back to the raw markup text. -/
def previewInit (html : String) (params : Json) : String :=
  match hbCompile html params with
  | .ok c => c
  | .error _ => html

/-- One firing of the `useEffect` in `Preview` (src/src/App.js lines 83-93):
recompile the debounced markup against the debounced params.  Returns the
new `compiledHtml` and whether a diagnostic was written to the console.
On any error the code sets `compiledHtml` to the raw debounced markup
(`setCompiledHtml(debouncedHtml)`); the previous `compiledHtml` is
overwritten in every case. -/
def previewStep (prevCompiledHtml : String) (debouncedHtml : String)
    (debouncedParams : Json) : String × Bool :=
  match hbCompile debouncedHtml debouncedParams with
  | .ok c => (c, false)
  | .error _ => (debouncedHtml, true)

/-! ## Editor session state

`AppState` holds the `useState` values of `App` (src/src/App.js lines
140-146): the three documents, the parsed data object, and the credential.
The three change handlers are the `onChange` callbacks wired to the three
editors (lines 230, 234, 240-247). -/

structure AppState where
  html : String
  css : String
  params : Json
  paramsJson : String
  apiKey : String

def htmlOnChange (st : AppState) (val : String) : AppState :=
  { st with html := val }

def cssOnChange (st : AppState) (val : String) : AppState :=
  { st with css := val }

/-- The data editor's `onChange` (src/src/App.js lines 240-247): parse the
new text; on success update both the parsed object and the stored text; on
failure leave the state untouched and warn to the console.  Returns the new
state and the console warnings emitted. -/
def dataOnChange (st : AppState) (val : String) : AppState × List String :=
  match jsonParse val with
  | .ok j => ({ st with params := j, paramsJson := val }, [])
  | .error _ => (st, ["Error parsing JSON"])

def apiKeyOnChange (st : AppState) (val : String) : AppState :=
  { st with apiKey := val }

/-! ## Persistence

The durable key-value store (localStorage through @rehooks/local-storage).
A `Store` maps string keys to stored values; `writeStorage` overwrites one
key.  The library serialises objects on write and parses them back on read,
which the model reflects by storing plain strings for the two text keys and
a structured value for `params` (the JSON-serialised data object). -/

inductive StoredVal where
  | str (s : String) : StoredVal
  | json (j : Json) : StoredVal

def Store : Type := String → Option StoredVal

def emptyStore : Store := fun _ => none

def writeStorage (key : String) (v : StoredVal) (st : Store) : Store :=
  fun k => if k = key then some v else st k

/-- The body of `debouncedWriteStorage` (src/src/App.js lines 125-133):
write all three keys together.  Note the credential is not an argument. -/
def writeSnapshot (html css : String) (params : Json) (st : Store) : Store :=
  writeStorage "params" (.json params)
    (writeStorage "css" (.str css)
      (writeStorage "html" (.str html) st))

def readStoredString (st : Store) (key : String) : Option String :=
  match st key with
  | some (.str s) => some s
  | _ => none

def readStoredJson (st : Store) (key : String) : Option Json :=
  match st key with
  | some (.json j) => some j
  | _ => none

/-- Modelled from the spec: the built-in example markup document
(src/html-example.js is not included under src/).  Its exact contents do
not matter to any claim; only that it is the fallback value. -/
def htmlExample : String := "<h1>\x7b\x7btitle\x7d\x7d</h1>"

/-- Modelled from the spec: the built-in example stylesheet document
(src/css-example.js is not included under src/). -/
def cssExample : String := "h1 \x7b color: red; \x7d"

def defaultParams : Json := .obj [("title", .str "Hello, World!")]

/-- A JSON number lexeme denotes zero exactly when its mantissa (the part
before any exponent) contains no digit other than `0`. -/
def numLexemeIsZero (lex : String) : Bool :=
  (lex.toList.takeWhile (fun c => !(c = 'e' || c = 'E'))).all
    (fun c => !(isDigitChar c) || c = '0')

/-- JavaScript truthiness of a parsed JSON value, as tested by the `||`
fallbacks in src/src/App.js lines 140-144 (`null`, `false`, zero and the
empty string are falsy; NaN cannot arise from `JSON.parse`). -/
def jsTruthy : Json → Bool
  | .null => false
  | .bool b => b
  | .num lex => !(numLexemeIsZero lex)
  | .str s => !(s = "")
  | .arr _ => true
  | .obj _ => true

def jsOrString (v : Option String) (dflt : String) : String :=
  match v with
  | some s => if s = "" then dflt else s
  | none => dflt

def jsOrJson (v : Option Json) (dflt : Json) : Json :=
  match v with
  | some j => if jsTruthy j then j else dflt
  | none => dflt

/-- Session start-up (src/src/App.js lines 136-146): read the three stored
keys and seed the `useState` values, substituting the built-in defaults via
`||` when a key is absent (or holds a falsy value); the credential starts
empty; `paramsJson` is the pretty-printed data object. -/
def loadInitial (store : Store) : AppState :=
  let html := jsOrString (readStoredString store "html") htmlExample
  let css := jsOrString (readStoredString store "css") cssExample
  let params := jsOrJson (readStoredJson store "params") defaultParams
  { html := html, css := css, params := params,
    paramsJson := jsonStringify2 params, apiKey := "" }

/-! ## Publish client

Model of `publish` (src/src/App.js lines 148-174).  The network is an
oracle `NetOutcome`; `axiosPost` throws (returns `.error`) on any transport
error or non-2xx response, carrying an opaque raw error value.  `publishJS`
is the whole handler as a possibly-throwing computation: the `.error` case
of its result type is JavaScript exception propagation, and the internal
try/catch (`catchAll`) is what keeps it from ever surfacing. -/

def host : String := "https://ssfy.sh/chrisvxd/og-impact"

structure NetRequest where
  url : String
  body : String
  styles : String
  authorization : String
  contentType : String

inductive NetOutcome where
  | ok (template : String) : NetOutcome
  | httpError (status : Nat) (raw : String) : NetOutcome
  | netError (raw : String) : NetOutcome

structure AxiosResponse where
  template : String

def axiosPost (req : NetRequest) (net : NetOutcome) : Except String AxiosResponse :=
  match net with
  | .ok t => .ok ⟨t⟩
  | .httpError _ raw => .error raw
  | .netError raw => .error raw

inductive PublishResult where
  | missingCredential : PublishResult
  | success (templateId : String) : PublishResult
  | failure (userMessage : String) : PublishResult

structure PublishEffects where
  result : PublishResult
  alerts : List String
  requests : List NetRequest
  logs : List String

def missingKeyAlert : String :=
  "Please provide your API key before publishing a template."

def publishFailureMessage : String :=
  "Publish was unsuccessful. Please ensure you are providing a valid API key."

def successAlert (templateId : String) : String :=
  "Save successful. Use template ID " ++ templateId ++ "."

def publishRequest (html css apiKey : String) : NetRequest :=
  { url := host ++ "/publish", body := html, styles := css,
    authorization := apiKey, contentType := "application/json" }

/-- The try block of `publish`: post the request and alert the assigned
template identifier from the response body's `template` field. -/
def publishTryBlock (html css apiKey : String) (net : NetOutcome) :
    Except String PublishEffects := do
  let resp ← axiosPost (publishRequest html css apiKey) net
  pure { result := .success resp.template,
         alerts := [successAlert resp.template],
         requests := [publishRequest html css apiKey],
         logs := [] }

/-- JavaScript try/catch: every thrown value is handed to the catch clause,
so the combined computation never propagates an exception. -/
def catchAll (x : Except String PublishEffects)
    (handler : String → PublishEffects) : Except String PublishEffects :=
  match x with
  | .ok v => .ok v
  | .error e => .ok (handler e)

/-- `publish` (src/src/App.js lines 148-174) as a possibly-throwing
computation over the in-scope state and the network oracle. -/
def publishJS (html css apiKey : String) (net : NetOutcome) :
    Except String PublishEffects :=
  if apiKey = "" then
    .ok { result := .missingCredential, alerts := [missingKeyAlert],
          requests := [], logs := [] }
  else
    catchAll (publishTryBlock html css apiKey net)
      (fun e =>
        { result := .failure publishFailureMessage,
          alerts := [publishFailureMessage],
          requests := [publishRequest html css apiKey],
          logs := [e] })

/-! ## Publish button

`Button` (src/src/App.js lines 47-67): `setLoading(true)`, await the click
handler, `setLoading(false)`.  If the handler threw, the reset would never
run and the button would stay disabled; `buttonClickRun` records that. -/

structure ButtonState where
  loading : Bool

def buttonClickRun (onClick : Except String PublishEffects) :
    ButtonState × Option PublishEffects :=
  match onClick with
  | .ok eff => ({ loading := false }, some eff)
  | .error _ => ({ loading := true }, none)

/-! ## Session traces

A session is the in-memory state plus the durable store and the console
log; events are the user-triggered operations of `App`.  `persistFlush` is
one execution of the debounced `debouncedWriteStorage(html, css, params)`
(src/src/App.js lines 176-178). -/

inductive SessionEvent where
  | editHtml (text : String) : SessionEvent
  | editCss (text : String) : SessionEvent
  | editData (text : String) : SessionEvent
  | editApiKey (text : String) : SessionEvent
  | persistFlush : SessionEvent
  | publishClick (net : NetOutcome) : SessionEvent

structure Session where
  st : AppState
  store : Store
  logs : List String

def stepEvent (s : Session) (e : SessionEvent) : Session :=
  match e with
  | .editHtml t => { s with st := htmlOnChange s.st t }
  | .editCss t => { s with st := cssOnChange s.st t }
  | .editData t =>
    let p := dataOnChange s.st t
    { s with st := p.1, logs := s.logs ++ p.2 }
  | .editApiKey t => { s with st := apiKeyOnChange s.st t }
  | .persistFlush =>
    { s with store := writeSnapshot s.st.html s.st.css s.st.params s.store }
  | .publishClick net =>
    match publishJS s.st.html s.st.css s.st.apiKey net with
    | .ok eff => { s with logs := s.logs ++ eff.logs }
    | .error _ => s

def runSession : Session → List SessionEvent → Session
  | s, [] => s
  | s, e :: es => runSession (stepEvent s e) es

/-- The raw transport-error values carried by the publish events of a
trace: the only non-constant values the session ever logs. -/
def rawErrors : List SessionEvent → List String
  | [] => []
  | .publishClick (.httpError _ raw) :: es => raw :: rawErrors es
  | .publishClick (.netError raw) :: es => raw :: rawErrors es
  | _ :: es => rawErrors es

/-! ## Debounce scheduler

Model of `lodash.debounce(fn, wait, \x7b maxWait \x7d)` as instantiated at
src/src/App.js lines 125-133 (`wait = 1000`, `maxWait = 5000`; the lodash
defaults `leading = false`, `trailing = true` apply, and `maxing` is on).
`DebState` is the closure state of the debounced function; times are
absolute virtual milliseconds and `timer` holds the absolute expiry time of
the pending `setTimeout`.  `debSim` is the single-threaded event loop: it
repeatedly processes whichever comes first of the next external call and
the pending timer, and accumulates the executions of the wrapped function
as (time, arguments) pairs. -/

structure DebState (α : Type) where
  lastArgs : Option α
  lastCallTime : Option Nat
  lastInvokeTime : Nat
  timer : Option Nat

def debInit {α : Type} : DebState α := ⟨none, none, 0, none⟩

/-- lodash `shouldInvoke`: first call ever, quiescence reached, time moved
backwards, or the maxWait ceiling elapsed since the last invocation. -/
def shouldInvoke {α : Type} (wait maxWait : Nat) (s : DebState α) (time : Nat) : Bool :=
  match s.lastCallTime with
  | none => true
  | some lct =>
    decide (wait ≤ time - lct) || decide (time < lct)
      || decide (maxWait ≤ time - s.lastInvokeTime)

/-- lodash `remainingWait` (only reached while `shouldInvoke` is false). -/
def remainingWait {α : Type} (wait maxWait : Nat) (s : DebState α) (time : Nat) : Nat :=
  min (wait - (time - s.lastCallTime.getD time))
    (maxWait - (time - s.lastInvokeTime))

/-- lodash `invokeFunc`: consume the pending arguments and record the
execution. -/
def invokeFunc {α : Type} (s : DebState α) (time : Nat) :
    DebState α × Option (Nat × α) :=
  match s.lastArgs with
  | some a => ({ s with lastArgs := none, lastInvokeTime := time }, some (time, a))
  | none => ({ s with lastInvokeTime := time }, none)

/-- lodash `trailingEdge`: clear the timer and invoke if arguments are
pending (`trailing` is true). -/
def trailingEdge {α : Type} (s : DebState α) (time : Nat) :
    DebState α × Option (Nat × α) :=
  match s.lastArgs with
  | some _ => invokeFunc { s with timer := none } time
  | none => ({ s with timer := none }, none)

/-- lodash `timerExpired`: at expiry either take the trailing edge or
restart the timer for the remaining wait. -/
def timerExpired {α : Type} (wait maxWait : Nat) (s : DebState α) (time : Nat) :
    DebState α × Option (Nat × α) :=
  if shouldInvoke wait maxWait s time then trailingEdge s time
  else ({ s with timer := some (time + remainingWait wait maxWait s time) }, none)

/-- The debounced function itself (lodash `debounced`): record the call,
and on an invoking call either open the window (leading edge, without
invoking since `leading` is false) or — since `maxing` is on — restart the
timer and invoke immediately. -/
def debCall {α : Type} (wait maxWait : Nat) (s : DebState α) (time : Nat) (a : α) :
    DebState α × Option (Nat × α) :=
  let isInvoking := shouldInvoke wait maxWait s time
  let s1 : DebState α := { s with lastArgs := some a, lastCallTime := some time }
  if isInvoking then
    match s1.timer with
    | none => ({ s1 with lastInvokeTime := time, timer := some (time + wait) }, none)
    | some _ => invokeFunc { s1 with timer := some (time + wait) } time
  else
    match s1.timer with
    | none => ({ s1 with timer := some (time + wait) }, none)
    | some _ => (s1, none)

/-- Event loop over a time-ordered list of external calls.  A pending timer
that expires no later than the next call is processed first; fuel bounds
the number of processed events. -/
def debSim {α : Type} (wait maxWait : Nat) :
    Nat → DebState α → List (Nat × α) → List (Nat × α) → List (Nat × α)
  | 0, _, _, log => log
  | fuel + 1, s, calls, log =>
    match s.timer, calls with
    | none, [] => log
    | some te, [] =>
      debSim wait maxWait fuel (timerExpired wait maxWait s te).1 []
        (log ++ ((timerExpired wait maxWait s te).2).toList)
    | none, (t, a) :: rest =>
      debSim wait maxWait fuel (debCall wait maxWait s t a).1 rest
        (log ++ ((debCall wait maxWait s t a).2).toList)
    | some te, (t, a) :: rest =>
      if te ≤ t then
        debSim wait maxWait fuel (timerExpired wait maxWait s te).1 ((t, a) :: rest)
          (log ++ ((timerExpired wait maxWait s te).2).toList)
      else
        debSim wait maxWait fuel (debCall wait maxWait s t a).1 rest
          (log ++ ((debCall wait maxWait s t a).2).toList)

/-- The arguments of one `debouncedWriteStorage(html, css, params)` call. -/
structure SaveArgs where
  html : String
  css : String
  params : Json

/-- The persistence debounce instance (src/src/App.js lines 125-133) run on
a burst of calls from a fresh state: `debounce(..., 1000, \x7b maxWait: 5000 \x7d)`.
The fuel covers every call event plus every possible timer resubscription. -/
def debouncedWriteStorageSim (calls : List (Nat × SaveArgs)) : List (Nat × SaveArgs) :=
  debSim 1000 5000 (calls.length + 5002) debInit calls []

/-! ## Theorems -/

lemma hbCompile_empty (data : Json) : hbCompile "" data = .ok "" := rfl

/-- C1 (counterexample): with previously rendered output `"OK"` and the
malformed template `"\x7b\x7b#if"`, the preview recompilation stores the raw
template text, not the previous successful output `"OK"` — contradicting
the claim that the displayed value equals the most recent successful
compiled output when one exists. -/
theorem render_failure_keeps_prior_output_cex :
    previewStep "OK" "\x7b\x7b#if" (Json.obj []) = ("\x7b\x7b#if", true)
      ∧ ("\x7b\x7b#if" : String) ≠ "OK" :=
  ⟨rfl, by decide⟩

/-- C1 (amended): whenever `render` fails (template compile or evaluation
error), the stored/displayed value equals the raw debounced template text
unmodified — even when a previous successful output exists; it is never an
observable error and never empty (a failing template is necessarily
non-empty), and a diagnostic is logged. -/
theorem render_failure_falls_back_to_raw (prev template : String) (data : Json)
    (e : String) (hfail : hbCompile template data = .error e) :
    previewStep prev template data = (template, true) ∧ template ≠ "" := by
  constructor
  · simp [previewStep, hfail]
  · intro h
    subst h
    rw [hbCompile_empty] at hfail
    exact Except.noConfusion hfail

theorem render_failure_falls_back_to_raw_witness :
    previewStep "PREV" "\x7b\x7bx" (Json.obj []) = ("\x7b\x7bx", true)
      ∧ ("\x7b\x7bx" : String) ≠ "" :=
  render_failure_falls_back_to_raw "PREV" "\x7b\x7bx" (Json.obj []) "unclosed tag" rfl

/-- C2 (counterexample): typing `"\x7b"` into the data editor while its
in-memory value is `"\x7b\x7d"` leaves the in-memory value at `"\x7b\x7d"`:
the data Document is NOT synchronously updated to the typed text when the
text fails to parse as JSON, contradicting the claim. -/
theorem keystroke_sync_update_cex :
    ((dataOnChange ⟨"", "", Json.obj [], "\x7b\x7d", ""⟩ "\x7b").1.paramsJson = "\x7b\x7d")
      ∧ ("\x7b\x7d" : String) ≠ "\x7b" :=
  ⟨rfl, by decide⟩

/-- C2 (amended): every keystroke updates the markup and stylesheet
Documents synchronously to exactly the typed text; the data Document's
in-memory value (and the DataObject) update synchronously only when the
typed text parses as JSON — on a parse failure both are left unchanged and
only a diagnostic is logged. -/
theorem keystroke_sync_update (st : AppState) (t : String) :
    (htmlOnChange st t).html = t ∧ (cssOnChange st t).css = t
      ∧ (dataOnChange st t).1.paramsJson
          = (match jsonParse t with | .ok _ => t | .error _ => st.paramsJson)
      ∧ (dataOnChange st t).1.params
          = (match jsonParse t with | .ok j => j | .error _ => st.params)
      ∧ (dataOnChange st t).2
          = (match jsonParse t with
             | .ok _ => ([] : List String)
             | .error _ => ["Error parsing JSON"]) := by
  refine ⟨rfl, rfl, ?_, ?_, ?_⟩ <;> cases h : jsonParse t <;> simp [dataOnChange, h]

/-- C3: publishing with an empty credential fails immediately with the
missing-credential outcome and issues no network request. -/
theorem publish_empty_credential_no_network (html css : String) (net : NetOutcome) :
    publishJS html css "" net
      = .ok { result := .missingCredential, alerts := [missingKeyAlert],
              requests := [], logs := [] } := by
  simp [publishJS]

/-- C6: when the data Document's new text fails to parse as JSON, the
DataObject is retained unchanged (the whole state is untouched), and the
failure is only logged, never surfaced — the handler completes normally. -/
theorem data_parse_failure_retains_params (st : AppState) (t : String)
    (hfail : exceptIsOk (jsonParse t) = false) :
    (dataOnChange st t).1.params = st.params ∧ (dataOnChange st t).1 = st
      ∧ (dataOnChange st t).2 = ["Error parsing JSON"] := by
  cases h : jsonParse t with
  | ok j => rw [h] at hfail; exact absurd hfail (by simp [exceptIsOk])
  | error e => simp [dataOnChange, h]

theorem data_parse_failure_retains_params_witness :
    (dataOnChange ⟨"", "", Json.null, "", ""⟩ "[").1.params = Json.null
      ∧ (dataOnChange ⟨"", "", Json.null, "", ""⟩ "[").1
          = (⟨"", "", Json.null, "", ""⟩ : AppState)
      ∧ (dataOnChange ⟨"", "", Json.null, "", ""⟩ "[").2 = ["Error parsing JSON"] :=
  data_parse_failure_retains_params ⟨"", "", Json.null, "", ""⟩ "[" rfl

/-- C8: with a non-empty credential, publish issues exactly one request; on
success the template identifier from the response body is surfaced to the
user; on any transport error or non-2xx response the result is a failure
carrying the fixed user-facing message (independent of the raw error),
the raw error is logged, no template identifier is produced, and no second
request is issued. -/
theorem publish_nonempty_credential_outcomes (html css apiKey : String)
    (hk : apiKey ≠ "") (net : NetOutcome) :
    publishJS html css apiKey net
      = .ok (match net with
        | .ok t =>
          { result := .success t, alerts := [successAlert t],
            requests := [publishRequest html css apiKey], logs := [] }
        | .httpError _ raw =>
          { result := .failure publishFailureMessage,
            alerts := [publishFailureMessage],
            requests := [publishRequest html css apiKey], logs := [raw] }
        | .netError raw =>
          { result := .failure publishFailureMessage,
            alerts := [publishFailureMessage],
            requests := [publishRequest html css apiKey], logs := [raw] }) := by
  cases net <;>
    simp [publishJS, hk, catchAll, publishTryBlock, axiosPost, bind, Except.bind,
          pure, Except.pure]

theorem publish_nonempty_credential_outcomes_witness :
    publishJS "h" "c" "k" (.httpError 401 "HTTP 401")
      = .ok { result := .failure publishFailureMessage,
              alerts := [publishFailureMessage],
              requests := [publishRequest "h" "c" "k"], logs := ["HTTP 401"] } :=
  publish_nonempty_credential_outcomes "h" "c" "k" (by decide) (.httpError 401 "HTTP 401")

/-- C7 (counterexample): saving a snapshot whose markup text is the empty
string and then loading does NOT return the snapshot as saved — the `||`
seeding replaces the present-but-empty field with the built-in default,
contradicting the claim that only absent fields are replaced. -/
theorem persistence_roundtrip_cex :
    (loadInitial (writeSnapshot "" "x" (Json.str "y") emptyStore)).html = htmlExample
      ∧ htmlExample ≠ "" :=
  ⟨rfl, by decide⟩

/-- C7 (amended): `save` followed by `load` returns the snapshot as saved
for each field whose saved value is truthy (non-empty markup/stylesheet
text, data object not null/false/zero/empty-string); a field that is absent
from the store — or present with a falsy value, which the seeding code
treats identically — is individually replaced by that field's built-in
default (e.g. with only `html` ever saved, `html` loads as saved while
`css` and `params` fall back to their defaults). -/
theorem persistence_roundtrip_truthy (store : Store) (html css : String)
    (params : Json) (honly : String) (hh : html ≠ "") (hc : css ≠ "")
    (hp : jsTruthy params = true) (ho : honly ≠ "") :
    ((loadInitial (writeSnapshot html css params store)).html = html
      ∧ (loadInitial (writeSnapshot html css params store)).css = css
      ∧ (loadInitial (writeSnapshot html css params store)).params = params)
    ∧ ((loadInitial (writeStorage "html" (.str honly) emptyStore)).html = honly
      ∧ (loadInitial (writeStorage "html" (.str honly) emptyStore)).css = cssExample
      ∧ (loadInitial (writeStorage "html" (.str honly) emptyStore)).params
          = defaultParams) := by
  have e1 : ("html" : String) ≠ "params" := by decide
  have e2 : ("html" : String) ≠ "css" := by decide
  have e3 : ("css" : String) ≠ "params" := by decide
  have e4 : ("css" : String) ≠ "html" := by decide
  have e5 : ("params" : String) ≠ "html" := by decide
  refine ⟨⟨?_, ?_, ?_⟩, ?_, ?_, ?_⟩ <;>
    simp [loadInitial, writeSnapshot, writeStorage, readStoredString,
          readStoredJson, jsOrString, jsOrJson, emptyStore,
          e1, e2, e3, e4, e5, hh, hc, hp, ho]

theorem persistence_roundtrip_truthy_witness :
    ((loadInitial (writeSnapshot "a" "b" (Json.str "y") emptyStore)).html = "a"
      ∧ (loadInitial (writeSnapshot "a" "b" (Json.str "y") emptyStore)).css = "b"
      ∧ (loadInitial (writeSnapshot "a" "b" (Json.str "y") emptyStore)).params
          = Json.str "y")
    ∧ ((loadInitial (writeStorage "html" (.str "hh") emptyStore)).html = "hh"
      ∧ (loadInitial (writeStorage "html" (.str "hh") emptyStore)).css = cssExample
      ∧ (loadInitial (writeStorage "html" (.str "hh") emptyStore)).params
          = defaultParams) :=
  persistence_roundtrip_truthy emptyStore "a" "b" (Json.str "y") "hh"
    (by decide) (by decide) (by decide) (by decide)

lemma stepEvent_store_other (s : Session) (e : SessionEvent) (k : String)
    (h1 : k ≠ "html") (h2 : k ≠ "css") (h3 : k ≠ "params") :
    (stepEvent s e).store k = s.store k := by
  cases e with
  | editHtml t => rfl
  | editCss t => rfl
  | editApiKey t => rfl
  | editData t => rfl
  | persistFlush => simp [stepEvent, writeSnapshot, writeStorage, h1, h2, h3]
  | publishClick net =>
    cases hp : publishJS s.st.html s.st.css s.st.apiKey net <;> simp [stepEvent, hp]

lemma runSession_store_other :
    ∀ (evs : List SessionEvent) (s : Session) (k : String),
      k ≠ "html" → k ≠ "css" → k ≠ "params" →
      (runSession s evs).store k = s.store k := by
  intro evs
  induction evs with
  | nil => intro s k _ _ _; rfl
  | cons e es ih =>
    intro s k h1 h2 h3
    simp only [runSession]
    rw [ih _ k h1 h2 h3, stepEvent_store_other s e k h1 h2 h3]

lemma stepEvent_publishClick_frame (s : Session) (net : NetOutcome) :
    (stepEvent s (.publishClick net)).store = s.store
      ∧ (stepEvent s (.publishClick net)).st = s.st := by
  cases hp : publishJS s.st.html s.st.css s.st.apiKey net <;> simp [stepEvent, hp]

lemma stepEvent_credfree (s₁ s₂ : Session) (e : SessionEvent)
    (hst : s₁.store = s₂.store) (hh : s₁.st.html = s₂.st.html)
    (hc : s₁.st.css = s₂.st.css) (hp : s₁.st.params = s₂.st.params)
    (hpj : s₁.st.paramsJson = s₂.st.paramsJson) :
    (stepEvent s₁ e).store = (stepEvent s₂ e).store
      ∧ (stepEvent s₁ e).st.html = (stepEvent s₂ e).st.html
      ∧ (stepEvent s₁ e).st.css = (stepEvent s₂ e).st.css
      ∧ (stepEvent s₁ e).st.params = (stepEvent s₂ e).st.params
      ∧ (stepEvent s₁ e).st.paramsJson = (stepEvent s₂ e).st.paramsJson := by
  cases e with
  | editHtml t => simp [stepEvent, htmlOnChange, hst, hh, hc, hp, hpj]
  | editCss t => simp [stepEvent, cssOnChange, hst, hh, hc, hp, hpj]
  | editApiKey t => simp [stepEvent, apiKeyOnChange, hst, hh, hc, hp, hpj]
  | editData t =>
    cases hj : jsonParse t <;>
      simp [stepEvent, dataOnChange, hj, hst, hh, hc, hp, hpj]
  | persistFlush => simp [stepEvent, hst, hh, hc, hp, hpj]
  | publishClick net =>
    obtain ⟨a1, a2⟩ := stepEvent_publishClick_frame s₁ net
    obtain ⟨b1, b2⟩ := stepEvent_publishClick_frame s₂ net
    rw [a1, a2, b1, b2]
    exact ⟨hst, hh, hc, hp, hpj⟩

lemma runSession_credfree :
    ∀ (evs : List SessionEvent) (s₁ s₂ : Session),
      s₁.store = s₂.store → s₁.st.html = s₂.st.html → s₁.st.css = s₂.st.css →
      s₁.st.params = s₂.st.params → s₁.st.paramsJson = s₂.st.paramsJson →
      (runSession s₁ evs).store = (runSession s₂ evs).store := by
  intro evs
  induction evs with
  | nil => intro s₁ s₂ hst _ _ _ _; exact hst
  | cons e es ih =>
    intro s₁ s₂ hst hh hc hp hpj
    obtain ⟨q1, q2, q3, q4, q5⟩ := stepEvent_credfree s₁ s₂ e hst hh hc hp hpj
    exact ih (stepEvent s₁ e) (stepEvent s₂ e) q1 q2 q3 q4 q5

lemma rawErrors_cons (e : SessionEvent) (es : List SessionEvent) :
    rawErrors (e :: es) = rawErrors [e] ++ rawErrors es := by
  cases e with
  | publishClick net => cases net <;> simp [rawErrors]
  | editHtml t => simp [rawErrors]
  | editCss t => simp [rawErrors]
  | editData t => simp [rawErrors]
  | editApiKey t => simp [rawErrors]
  | persistFlush => simp [rawErrors]

def netRaw : NetOutcome → List String
  | .ok _ => []
  | .httpError _ raw => [raw]
  | .netError raw => [raw]

lemma publishJS_log_entries (html css apiKey : String) (net : NetOutcome)
    (eff : PublishEffects) (h : publishJS html css apiKey net = .ok eff) :
    ∀ entry ∈ eff.logs, entry ∈ netRaw net := by
  by_cases hk : apiKey = "" <;> cases net <;>
    simp [publishJS, hk, catchAll, publishTryBlock, axiosPost,
          bind, Except.bind, pure, Except.pure] at h <;>
    rw [← h] <;> simp [netRaw]

lemma rawErrors_publishClick (net : NetOutcome) :
    rawErrors [.publishClick net] = netRaw net := by
  cases net <;> simp [rawErrors, netRaw]

lemma stepEvent_logs (s : Session) (e : SessionEvent) :
    ∀ entry ∈ (stepEvent s e).logs,
      entry ∈ s.logs ∨ entry = "Error parsing JSON" ∨ entry ∈ rawErrors [e] := by
  intro entry hmem
  cases e with
  | editHtml t => exact .inl hmem
  | editCss t => exact .inl hmem
  | editApiKey t => exact .inl hmem
  | persistFlush => exact .inl hmem
  | editData t =>
    have hstep : (stepEvent s (.editData t)).logs
        = s.logs ++ (dataOnChange s.st t).2 := rfl
    rw [hstep] at hmem
    cases hj : jsonParse t with
    | ok j =>
      rw [show (dataOnChange s.st t).2 = [] from by simp [dataOnChange, hj]] at hmem
      exact .inl (by simpa using hmem)
    | error err =>
      rw [show (dataOnChange s.st t).2 = ["Error parsing JSON"] from by
        simp [dataOnChange, hj]] at hmem
      rcases List.mem_append.mp hmem with h | h
      · exact .inl h
      · exact .inr (.inl (by simpa using h))
  | publishClick net =>
    cases hp : publishJS s.st.html s.st.css s.st.apiKey net with
    | ok eff =>
      have hstep : (stepEvent s (.publishClick net)).logs = s.logs ++ eff.logs := by
        simp [stepEvent, hp]
      rw [hstep] at hmem
      rcases List.mem_append.mp hmem with h | h
      · exact .inl h
      · exact .inr (.inr (by
          rw [rawErrors_publishClick]
          exact publishJS_log_entries _ _ _ _ _ hp entry h))
    | error err =>
      have hstep : (stepEvent s (.publishClick net)).logs = s.logs := by
        simp [stepEvent, hp]
      rw [hstep] at hmem
      exact .inl hmem

lemma runSession_logs :
    ∀ (evs : List SessionEvent) (s : Session) (entry : String),
      entry ∈ (runSession s evs).logs →
      entry ∈ s.logs ∨ entry = "Error parsing JSON" ∨ entry ∈ rawErrors evs := by
  intro evs
  induction evs with
  | nil => intro s entry h; exact .inl h
  | cons e es ih =>
    intro s entry h
    simp only [runSession] at h
    rcases ih (stepEvent s e) entry h with h1 | h1 | h1
    · rcases stepEvent_logs s e entry h1 with h2 | h2 | h2
      · exact .inl h2
      · exact .inr (.inl h2)
      · exact .inr (.inr (by rw [rawErrors_cons]; exact List.mem_append_left _ h2))
    · exact .inr (.inl h1)
    · exact .inr (.inr (by rw [rawErrors_cons]; exact List.mem_append_right _ h1))

/-- C9: over every session trace, the durable store writes touch exactly
the `html`, `css` and `params` keys; two runs whose initial states differ
only in the credential produce identical persisted state; and every log
entry the session emits is a fixed diagnostic constant or a raw
transport-error value supplied by the network layer — the credential itself
is never persisted and never logged by the editor's code. -/
theorem credential_never_persisted_or_logged (evs : List SessionEvent)
    (s₁ s₂ : Session) (hstore : s₁.store = s₂.store)
    (hh : s₁.st.html = s₂.st.html) (hc : s₁.st.css = s₂.st.css)
    (hp : s₁.st.params = s₂.st.params) (hpj : s₁.st.paramsJson = s₂.st.paramsJson) :
    (runSession s₁ evs).store = (runSession s₂ evs).store
      ∧ (∀ k, k ≠ "html" → k ≠ "css" → k ≠ "params" →
          (runSession s₁ evs).store k = s₁.store k)
      ∧ (∀ entry ∈ (runSession s₁ evs).logs,
          entry ∈ s₁.logs ∨ entry = "Error parsing JSON" ∨ entry ∈ rawErrors evs) :=
  ⟨runSession_credfree evs s₁ s₂ hstore hh hc hp hpj,
   fun k h1 h2 h3 => runSession_store_other evs s₁ k h1 h2 h3,
   fun entry h => runSession_logs evs s₁ entry h⟩

theorem credential_never_persisted_or_logged_witness :
    (runSession ⟨⟨"h", "c", Json.null, "", "secretA"⟩, emptyStore, []⟩
        [.editApiKey "secretA2", .persistFlush,
         .publishClick (.httpError 401 "HTTP 401")]).store
      = (runSession ⟨⟨"h", "c", Json.null, "", "secretB"⟩, emptyStore, []⟩
        [.editApiKey "secretA2", .persistFlush,
         .publishClick (.httpError 401 "HTTP 401")]).store
      ∧ (∀ k, k ≠ "html" → k ≠ "css" → k ≠ "params" →
          (runSession ⟨⟨"h", "c", Json.null, "", "secretA"⟩, emptyStore, []⟩
            [.editApiKey "secretA2", .persistFlush,
             .publishClick (.httpError 401 "HTTP 401")]).store k
          = (⟨⟨"h", "c", Json.null, "", "secretA"⟩, emptyStore, []⟩ : Session).store k)
      ∧ (∀ entry ∈ (runSession ⟨⟨"h", "c", Json.null, "", "secretA"⟩, emptyStore, []⟩
            [.editApiKey "secretA2", .persistFlush,
             .publishClick (.httpError 401 "HTTP 401")]).logs,
          entry ∈ (⟨⟨"h", "c", Json.null, "", "secretA"⟩, emptyStore, []⟩ : Session).logs
            ∨ entry = "Error parsing JSON"
            ∨ entry ∈ rawErrors [.editApiKey "secretA2", .persistFlush,
                .publishClick (.httpError 401 "HTTP 401")]) :=
  credential_never_persisted_or_logged
    [.editApiKey "secretA2", .persistFlush, .publishClick (.httpError 401 "HTTP 401")]
    ⟨⟨"h", "c", Json.null, "", "secretA"⟩, emptyStore, []⟩
    ⟨⟨"h", "c", Json.null, "", "secretB"⟩, emptyStore, []⟩
    rfl rfl rfl rfl rfl

lemma shouldInvoke_eq_false {α : Type} (wait maxWait : Nat) (la : Option α)
    (lct liv : Nat) (tm : Option Nat) (time : Nat)
    (h1 : ¬ wait ≤ time - lct) (h2 : ¬ time < lct) (h3 : ¬ maxWait ≤ time - liv) :
    shouldInvoke wait maxWait (⟨la, some lct, liv, tm⟩ : DebState α) time = false := by
  simp [shouldInvoke, h1, h2, h3]

lemma shouldInvoke_eq_true {α : Type} (wait maxWait : Nat) (la : Option α)
    (lct liv : Nat) (tm : Option Nat) (time : Nat)
    (h : wait ≤ time - lct ∨ time < lct ∨ maxWait ≤ time - liv) :
    shouldInvoke wait maxWait (⟨la, some lct, liv, tm⟩ : DebState α) time = true := by
  rcases h with h | h | h <;> simp [shouldInvoke, h]

lemma debCall_quiet {α : Type} (wait maxWait : Nat) (la : Option α)
    (lct liv te t : Nat) (a : α)
    (h1 : ¬ wait ≤ t - lct) (h2 : ¬ t < lct) (h3 : ¬ maxWait ≤ t - liv) :
    debCall wait maxWait (⟨la, some lct, liv, some te⟩ : DebState α) t a
      = (⟨some a, some t, liv, some te⟩, none) := by
  simp [debCall, shouldInvoke_eq_false wait maxWait la lct liv (some te) t h1 h2 h3]

lemma timerExpired_invoke {α : Type} (wait maxWait : Nat) (a : α)
    (lct liv te time : Nat)
    (h : wait ≤ time - lct ∨ time < lct ∨ maxWait ≤ time - liv) :
    timerExpired wait maxWait (⟨some a, some lct, liv, some te⟩ : DebState α) time
      = (⟨none, some lct, time, none⟩, some (time, a)) := by
  simp [timerExpired, shouldInvoke_eq_true wait maxWait (some a) lct liv (some te) time h,
        trailingEdge, invokeFunc]

lemma timerExpired_reschedule {α : Type} (wait maxWait : Nat) (la : Option α)
    (lct liv te time : Nat)
    (h1 : ¬ wait ≤ time - lct) (h2 : ¬ time < lct) (h3 : ¬ maxWait ≤ time - liv) :
    timerExpired wait maxWait (⟨la, some lct, liv, some te⟩ : DebState α) time
      = (⟨la, some lct, liv,
          some (time + min (wait - (time - lct)) (maxWait - (time - liv)))⟩, none) := by
  simp [timerExpired, shouldInvoke_eq_false wait maxWait la lct liv (some te) time h1 h2 h3,
        remainingWait]

lemma debSim_idle {α : Type} (wait maxWait : Nat) (f : Nat) (la : Option α)
    (lc : Option Nat) (liv : Nat) (log : List (Nat × α)) :
    debSim wait maxWait f ⟨la, lc, liv, none⟩ [] log = log := by
  cases f <;> simp [debSim]

lemma debSim_first_call {α : Type} (wait maxWait f t : Nat) (a : α)
    (rest log : List (Nat × α)) :
    debSim wait maxWait (f + 1) debInit ((t, a) :: rest) log
      = debSim wait maxWait f ⟨some a, some t, t, some (t + wait)⟩ rest log := by
  show debSim wait maxWait f ⟨some a, some t, t, some (t + wait)⟩ rest (log ++ [])
    = debSim wait maxWait f ⟨some a, some t, t, some (t + wait)⟩ rest log
  rw [List.append_nil]

/-- While further calls of a burst arrive strictly before the pending timer
(opened by the burst's first call at `t0`), each call only replaces the
pending arguments and the last-call time; no execution happens. -/
lemma debSim_burst {α : Type} (wait maxWait : Nat) (hwm : wait ≤ maxWait) :
    ∀ (rest : List (Nat × α)) (n lct t0 : Nat) (a0 : α) (log : List (Nat × α)),
      t0 ≤ lct →
      (∀ p ∈ rest, lct ≤ p.1) →
      List.Pairwise (fun p q : Nat × α => p.1 ≤ q.1) rest →
      (∀ p ∈ rest, p.1 < t0 + wait) →
      debSim wait maxWait (rest.length + n)
          ⟨some a0, some lct, t0, some (t0 + wait)⟩ rest log
        = debSim wait maxWait n
          ⟨some (rest.getLastD (lct, a0)).2, some (rest.getLastD (lct, a0)).1,
            t0, some (t0 + wait)⟩ [] log := by
  intro rest
  induction rest with
  | nil =>
    intro n lct t0 a0 log _ _ _ _
    simp [List.getLastD]
  | cons p rest ih =>
    obtain ⟨t, a⟩ := p
    intro n lct t0 a0 log h0 hge hpw hwin
    have htlt : t < t0 + wait := hwin (t, a) (List.mem_cons_self _ _)
    have hlct : lct ≤ t := hge (t, a) (List.mem_cons_self _ _)
    rw [show ((t, a) :: rest).length + n = (rest.length + n) + 1 from by
      simp [List.length_cons]; omega]
    simp only [debSim]
    rw [if_neg (by omega : ¬ t0 + wait ≤ t)]
    rw [debCall_quiet wait maxWait (some a0) lct t0 (t0 + wait) t a
      (by omega) (by omega) (by omega)]
    simp only [Option.toList, List.append_nil]
    rw [ih n t t0 a log (by omega)
      (fun q hq => (List.pairwise_cons.mp hpw).1 q hq)
      (List.pairwise_cons.mp hpw).2
      (fun q hq => hwin q (List.mem_cons_of_mem _ hq))]
    rw [List.getLastD_cons]

lemma debSim_step_timer_nil {α : Type} (wait maxWait f : Nat) (la : Option α)
    (lc : Option Nat) (liv te : Nat) (log : List (Nat × α)) :
    debSim wait maxWait (f + 1) ⟨la, lc, liv, some te⟩ [] log
      = debSim wait maxWait f
          (timerExpired wait maxWait ⟨la, lc, liv, some te⟩ te).1 []
          (log ++ ((timerExpired wait maxWait ⟨la, lc, liv, some te⟩ te).2).toList) :=
  rfl

/-- After the burst goes quiet, the pending timer fires (once directly, or
once to re-arm for the remaining wait and once more), and the single
trailing execution carries the arguments of the last call. -/
lemma debSim_drain {α : Type} (wait maxWait : Nat) (hw : 0 < wait)
    (hwm : wait + wait ≤ maxWait) (t0 tN : Nat) (aN : α) (n : Nat)
    (log : List (Nat × α)) (h1 : t0 ≤ tN) (h2 : tN < t0 + wait) :
    debSim wait maxWait (n + 3) ⟨some aN, some tN, t0, some (t0 + wait)⟩ [] log
      = log ++ [(tN + wait, aN)] := by
  rcases Nat.eq_or_lt_of_le h1 with heq | hlt
  · subst heq
    rw [show n + 3 = (n + 2) + 1 from rfl, debSim_step_timer_nil]
    rw [timerExpired_invoke wait maxWait aN t0 t0 (t0 + wait) (t0 + wait)
      (Or.inl (by omega))]
    simp only [Option.toList]
    rw [debSim_idle]
  · rw [show n + 3 = (n + 2) + 1 from rfl, debSim_step_timer_nil]
    rw [timerExpired_reschedule wait maxWait (some aN) tN t0 (t0 + wait) (t0 + wait)
      (by omega) (by omega) (by omega)]
    simp only [Option.toList, List.append_nil]
    rw [show t0 + wait + min (wait - (t0 + wait - tN)) (maxWait - (t0 + wait - t0))
      = tN + wait from by omega]
    rw [show n + 2 = (n + 1) + 1 from rfl, debSim_step_timer_nil]
    rw [timerExpired_invoke wait maxWait aN tN t0 (tN + wait) (tN + wait)
      (Or.inl (by omega))]
    simp only [Option.toList]
    rw [debSim_idle]

lemma debSim_step_timer_cons {α : Type} (wait maxWait f : Nat) (la : Option α)
    (lc : Option Nat) (liv te t : Nat) (a : α) (rest log : List (Nat × α)) :
    debSim wait maxWait (f + 1) ⟨la, lc, liv, some te⟩ ((t, a) :: rest) log
      = if te ≤ t then
          debSim wait maxWait f
            (timerExpired wait maxWait ⟨la, lc, liv, some te⟩ te).1 ((t, a) :: rest)
            (log ++ ((timerExpired wait maxWait ⟨la, lc, liv, some te⟩ te).2).toList)
        else
          debSim wait maxWait f
            (debCall wait maxWait ⟨la, lc, liv, some te⟩ t a).1 rest
            (log ++ ((debCall wait maxWait ⟨la, lc, liv, some te⟩ t a).2).toList) :=
  rfl

lemma shouldInvoke_true_elim {α : Type} {wait maxWait : Nat} {la : Option α}
    {lct liv : Nat} {tm : Option Nat} {time : Nat}
    (h : shouldInvoke wait maxWait (⟨la, some lct, liv, tm⟩ : DebState α) time = true) :
    wait ≤ time - lct ∨ time < lct ∨ maxWait ≤ time - liv := by
  have h2 : (wait ≤ time - lct ∨ time < lct) ∨ maxWait ≤ time - liv := by
    simpa [shouldInvoke, Bool.or_eq_true, decide_eq_true_eq] using h
  tauto

lemma shouldInvoke_false_elim {α : Type} {wait maxWait : Nat} {la : Option α}
    {lct liv : Nat} {tm : Option Nat} {time : Nat}
    (h : shouldInvoke wait maxWait (⟨la, some lct, liv, tm⟩ : DebState α) time = false) :
    ¬ wait ≤ time - lct ∧ ¬ time < lct ∧ ¬ maxWait ≤ time - liv := by
  have h2 : (time - lct < wait ∧ lct ≤ time) ∧ time - liv < maxWait := by
    simpa [shouldInvoke, decide_eq_false_iff_not] using h
  exact ⟨by omega, by omega, by omega⟩

/-- The event loop only ever appends to the execution log. -/
lemma debSim_log_extends {α : Type} (wait maxWait : Nat) :
    ∀ (fuel : Nat) (s : DebState α) (calls log : List (Nat × α)),
      ∃ tail, debSim wait maxWait fuel s calls log = log ++ tail := by
  intro fuel
  induction fuel with
  | zero =>
    intro s calls log
    exact ⟨[], by simp [debSim]⟩
  | succ f ih =>
    intro s calls log
    obtain ⟨la, lc, liv, tm⟩ := s
    cases tm with
    | none =>
      cases calls with
      | nil => exact ⟨[], by simp [debSim]⟩
      | cons c rest =>
        obtain ⟨t, a⟩ := c
        obtain ⟨tail, htail⟩ :=
          ih (debCall wait maxWait ⟨la, lc, liv, none⟩ t a).1 rest
            (log ++ ((debCall wait maxWait ⟨la, lc, liv, none⟩ t a).2).toList)
        refine ⟨((debCall wait maxWait ⟨la, lc, liv, none⟩ t a).2).toList ++ tail, ?_⟩
        show debSim wait maxWait f (debCall wait maxWait ⟨la, lc, liv, none⟩ t a).1 rest
            (log ++ ((debCall wait maxWait ⟨la, lc, liv, none⟩ t a).2).toList)
          = log ++ (((debCall wait maxWait ⟨la, lc, liv, none⟩ t a).2).toList ++ tail)
        rw [htail, List.append_assoc]
    | some te =>
      cases calls with
      | nil =>
        obtain ⟨tail, htail⟩ :=
          ih (timerExpired wait maxWait ⟨la, lc, liv, some te⟩ te).1 []
            (log ++ ((timerExpired wait maxWait ⟨la, lc, liv, some te⟩ te).2).toList)
        refine ⟨((timerExpired wait maxWait ⟨la, lc, liv, some te⟩ te).2).toList ++ tail, ?_⟩
        rw [debSim_step_timer_nil, htail, List.append_assoc]
      | cons c rest =>
        obtain ⟨t, a⟩ := c
        by_cases hord : te ≤ t
        · obtain ⟨tail, htail⟩ :=
            ih (timerExpired wait maxWait ⟨la, lc, liv, some te⟩ te).1 ((t, a) :: rest)
              (log ++ ((timerExpired wait maxWait ⟨la, lc, liv, some te⟩ te).2).toList)
          refine ⟨((timerExpired wait maxWait ⟨la, lc, liv, some te⟩ te).2).toList ++ tail, ?_⟩
          rw [debSim_step_timer_cons, if_pos hord, htail, List.append_assoc]
        · obtain ⟨tail, htail⟩ :=
            ih (debCall wait maxWait ⟨la, lc, liv, some te⟩ t a).1 rest
              (log ++ ((debCall wait maxWait ⟨la, lc, liv, some te⟩ t a).2).toList)
          refine ⟨((debCall wait maxWait ⟨la, lc, liv, some te⟩ t a).2).toList ++ tail, ?_⟩
          rw [debSim_step_timer_cons, if_neg hord, htail, List.append_assoc]

/-- Main safety argument for the maxWait ceiling: while no execution has
happened, the pending timer never moves past `lastInvokeTime + maxWait`
(subsequent calls leave it alone, and each re-arm keeps the ceiling), and
each processed event either executes at or below the ceiling or strictly
decreases the remaining budget.  Hence some execution lands at or before
`t0 + maxWait`. -/
lemma debSim_maxwait_invoke {α : Type} (wait maxWait : Nat) (hw : 0 < wait) :
    ∀ (fuel : Nat) (calls : List (Nat × α)) (te lct t0 : Nat) (aP : α)
      (log : List (Nat × α)),
      te ≤ t0 + maxWait →
      List.Chain (fun x y : Nat => x ≤ y ∧ y < x + wait) lct (calls.map Prod.fst) →
      t0 ≤ lct →
      calls.length + (t0 + maxWait - te) + 1 ≤ fuel →
      ∃ T : Nat, ∃ b : α,
        (T, b) ∈ debSim wait maxWait fuel ⟨some aP, some lct, t0, some te⟩ calls log
          ∧ T ≤ t0 + maxWait := by
  intro fuel
  induction fuel with
  | zero =>
    intro calls te lct t0 aP log _ _ _ hf
    omega
  | succ f ih =>
    intro calls te lct t0 aP log hte hch h0 hf
    cases calls with
    | nil =>
      rw [debSim_step_timer_nil]
      cases hsi : shouldInvoke wait maxWait
          (⟨some aP, some lct, t0, some te⟩ : DebState α) te with
      | true =>
        rw [timerExpired_invoke wait maxWait aP lct t0 te te
          (shouldInvoke_true_elim hsi)]
        simp only [Option.toList]
        rw [debSim_idle]
        exact ⟨te, aP, by simp, hte⟩
      | false =>
        obtain ⟨n1, n2, n3⟩ := shouldInvoke_false_elim hsi
        rw [timerExpired_reschedule wait maxWait (some aP) lct t0 te te n1 n2 n3]
        simp only [Option.toList, List.append_nil]
        apply ih [] (te + min (wait - (te - lct)) (maxWait - (te - t0))) lct t0 aP log
          (by omega) (List.Chain.nil) h0 (by simp at hf ⊢; omega)
    | cons c rest =>
      obtain ⟨t, a⟩ := c
      simp only [List.map_cons] at hch
      obtain ⟨⟨hle, hlt⟩, hch2⟩ := List.chain_cons.mp hch
      rw [debSim_step_timer_cons]
      by_cases hord : te ≤ t
      · rw [if_pos hord]
        cases hsi : shouldInvoke wait maxWait
            (⟨some aP, some lct, t0, some te⟩ : DebState α) te with
        | true =>
          rw [timerExpired_invoke wait maxWait aP lct t0 te te
            (shouldInvoke_true_elim hsi)]
          obtain ⟨tail, htail⟩ := debSim_log_extends wait maxWait f
            ⟨none, some lct, te, none⟩ ((t, a) :: rest)
            (log ++ ((some (te, aP) : Option (Nat × α))).toList)
          refine ⟨te, aP, ?_, hte⟩
          rw [htail]
          simp
        | false =>
          obtain ⟨n1, n2, n3⟩ := shouldInvoke_false_elim hsi
          rw [timerExpired_reschedule wait maxWait (some aP) lct t0 te te n1 n2 n3]
          simp only [Option.toList, List.append_nil]
          apply ih ((t, a) :: rest)
            (te + min (wait - (te - lct)) (maxWait - (te - t0))) lct t0 aP log
            (by omega) hch h0 ?_
          simp only [List.length_cons] at hf ⊢
          omega
      · rw [if_neg hord]
        have hn1 : ¬ wait ≤ t - lct := by omega
        have hn2 : ¬ t < lct := by omega
        have hn3 : ¬ maxWait ≤ t - t0 := by omega
        rw [debCall_quiet wait maxWait (some aP) lct t0 te t a hn1 hn2 hn3]
        simp only [Option.toList, List.append_nil]
        apply ih rest te t t0 a log hte hch2 (by omega) ?_
        simp only [List.length_cons] at hf
        omega

/-- C5: any burst of one or more calls of the persistence debounce instance
that all arrive within a window shorter than the delay (1s) produces
exactly one execution — the trailing-edge one, carrying the arguments of
the last call; all intermediate argument sets are discarded. -/
theorem debounce_trailing_single_execution (t₁ : Nat) (a₁ : SaveArgs)
    (rest : List (Nat × SaveArgs))
    (hmono : List.Pairwise (fun p q : Nat × SaveArgs => p.1 ≤ q.1) ((t₁, a₁) :: rest))
    (hwin : ∀ p ∈ (t₁, a₁) :: rest, p.1 < t₁ + 1000) :
    debouncedWriteStorageSim ((t₁, a₁) :: rest)
      = [((rest.getLastD (t₁, a₁)).1 + 1000, (rest.getLastD (t₁, a₁)).2)] := by
  unfold debouncedWriteStorageSim
  rw [show ((t₁, a₁) :: rest).length + 5002 = (rest.length + 5002) + 1 from by
    simp [List.length_cons]
    try omega]
  rw [debSim_first_call]
  rw [debSim_burst 1000 5000 (by omega) rest 5002 t₁ t₁ a₁ []
    (Nat.le_refl t₁)
    (fun q hq => (List.pairwise_cons.mp hmono).1 q hq)
    (List.pairwise_cons.mp hmono).2
    (fun q hq => hwin q (List.mem_cons_of_mem _ hq))]
  have hmem : rest.getLastD (t₁, a₁) ∈ (t₁, a₁) :: rest := by
    cases rest with
    | nil => simp [List.getLastD]
    | cons q qs =>
      rw [List.getLastD_cons]
      exact List.mem_cons_of_mem _ (List.getLastD_mem_cons _ _)
  have hN1 : t₁ ≤ (rest.getLastD (t₁, a₁)).1 := by
    rcases List.mem_cons.mp hmem with h | h
    · rw [h]
    · exact (List.pairwise_cons.mp hmono).1 _ h
  have hN2 : (rest.getLastD (t₁, a₁)).1 < t₁ + 1000 := hwin _ hmem
  rw [show (5002 : Nat) = 4999 + 3 from rfl]
  rw [debSim_drain 1000 5000 (by omega) (by omega) t₁ (rest.getLastD (t₁, a₁)).1
    (rest.getLastD (t₁, a₁)).2 4999 [] hN1 hN2]
  simp

/-- C4: for the persistence debounce instance (delay 1s, maxWait 5s), a
burst of continuous calls spaced less than the delay apart and spanning
more than maxWait still produces at least one execution at or before
maxWait has elapsed from the first call of the burst: subsequent calls
never reset the maxWait ceiling, so durable storage is reached at least
every 5 seconds during continuous typing. -/
theorem debounce_maxwait_bound (t₁ : Nat) (a₁ : SaveArgs)
    (rest : List (Nat × SaveArgs))
    (hchain : List.Chain (fun x y : Nat => x ≤ y ∧ y < x + 1000) t₁
      (rest.map Prod.fst))
    (hspan : t₁ + 5000 < (rest.map Prod.fst).getLastD t₁) :
    ∃ T : Nat, ∃ b : SaveArgs,
      (T, b) ∈ debouncedWriteStorageSim ((t₁, a₁) :: rest) ∧ T ≤ t₁ + 5000 := by
  unfold debouncedWriteStorageSim
  rw [show ((t₁, a₁) :: rest).length + 5002 = (rest.length + 5002) + 1 from by
    simp [List.length_cons]
    try omega]
  rw [debSim_first_call]
  exact debSim_maxwait_invoke 1000 5000 (by omega) (rest.length + 5002) rest
    (t₁ + 1000) t₁ t₁ a₁ [] (by omega) hchain (Nat.le_refl _) (by omega)

theorem debounce_maxwait_bound_witness :
    ∃ T : Nat, ∃ b : SaveArgs,
      (T, b) ∈ debouncedWriteStorageSim
        [(0, ⟨"a0", "c", Json.null⟩), (900, ⟨"a1", "c", Json.null⟩),
         (1800, ⟨"a2", "c", Json.null⟩), (2700, ⟨"a3", "c", Json.null⟩),
         (3600, ⟨"a4", "c", Json.null⟩), (4500, ⟨"a5", "c", Json.null⟩),
         (5400, ⟨"a6", "c", Json.null⟩)]
        ∧ T ≤ 0 + 5000 :=
  debounce_maxwait_bound 0 ⟨"a0", "c", Json.null⟩
    [(900, ⟨"a1", "c", Json.null⟩), (1800, ⟨"a2", "c", Json.null⟩),
     (2700, ⟨"a3", "c", Json.null⟩), (3600, ⟨"a4", "c", Json.null⟩),
     (4500, ⟨"a5", "c", Json.null⟩), (5400, ⟨"a6", "c", Json.null⟩)]
    (by
      simp only [List.map_cons, List.map_nil, List.chain_cons]
      refine ⟨⟨?_, ?_⟩, ⟨?_, ?_⟩, ⟨?_, ?_⟩, ⟨?_, ?_⟩, ⟨?_, ?_⟩, ⟨?_, ?_⟩,
        List.Chain.nil⟩ <;> omega)
    (by decide)

theorem debounce_trailing_single_execution_witness :
    debouncedWriteStorageSim
        [(100, ⟨"a", "c", Json.null⟩), (300, ⟨"b", "c", Json.null⟩),
         (700, ⟨"d", "c", Json.null⟩)]
      = [(1700, ⟨"d", "c", Json.null⟩)] :=
  debounce_trailing_single_execution 100 ⟨"a", "c", Json.null⟩
    [(300, ⟨"b", "c", Json.null⟩), (700, ⟨"d", "c", Json.null⟩)]
    (by decide) (by decide)

/-- C10: for every credential, document pair and network outcome, `publish`
never propagates an exception to its caller (the computation always
completes with a value), so the button's loading flag is always reset after
the attempt. -/
theorem publish_never_throws_button_resets (html css apiKey : String)
    (net : NetOutcome) :
    exceptIsOk (publishJS html css apiKey net) = true
      ∧ (buttonClickRun (publishJS html css apiKey net)).1.loading = false := by
  by_cases hk : apiKey = ""
  · subst hk
    constructor <;> simp [publishJS, buttonClickRun, exceptIsOk]
  · cases net <;> constructor <;>
      simp [publishJS, hk, catchAll, publishTryBlock, axiosPost,
            bind, Except.bind, pure, Except.pure, buttonClickRun, exceptIsOk]

end OGIE
